import Mathlib

/-!
Verification of the SharePoint loader repository.

This file embeds, as executable Lean definitions, the parts of the repository
that the specification's claims are about:

* the path-reconstruction logic shared by `sharepoint_api.list_folder_contents`
  and `sharepoint_aoi.list_folder_contents` (splitting the server-supplied
  `parentReference.path` on the sentinel `root:`);
* the recursive, depth-first enumeration `sharepoint_aoi.list_folder_contents`;
* the paginated single-level listing `sharepoint_api.list_folder_contents`
  (the `@odata.nextLink` while-loop);
* the MIME-type dispatch of `sharepoint_api.load_sharepoint_document`;
* the document parsers `CustomWordLoader`, `CustomExcelLoader` and
  `CustomTextLoader` (the no-chunker paths);
* `sharepoint_api.download_file` (status-200 check before writing);
* `sharepoint_api.recursive_download` (try/except placement, propagation of
  exceptions raised inside the per-folder loop);
* `process_element` of `download_all_files_to_local_folder.py` with its
  module-level `processed_files` de-duplication set, threaded explicitly.

Remote trees are modelled by the inductive type `Forest`; the HTTP layer is
replaced by environments that state, per node id, what the server or the local
filesystem would do.
-/

namespace SPVerify

/-! ## Python string helpers -/

/-- Fueled worker for `pySplit`.  Splits a character list on each
non-overlapping occurrence of `sep`, scanning left to right, exactly like
Python's `str.split(sep)` for a non-empty separator.  The fuel is consumed one
character per step so that the recursion is structural and kernel-reducible;
`pySplit` supplies enough fuel for the whole string. -/
def splitOnChars (sep : List Char) : Nat → List Char → List (List Char)
  | _, [] => [[]]
  | 0, s => [s]
  | fuel+1, c :: cs =>
      if sep ≠ [] ∧ sep.isPrefixOf (c :: cs) then
        [] :: splitOnChars sep fuel (List.drop (sep.length - 1) cs)
      else
        match splitOnChars sep fuel cs with
        | [] => [[c]]
        | p :: ps => (c :: p) :: ps

/-- Embedding of Python's `s.split(sep)` for a non-empty separator. -/
def pySplit (sep s : String) : List String :=
  (splitOnChars sep.data s.data.length s.data).map (fun l => String.mk l)

/-- Embedding of Python's `s.lstrip('/')`. -/
def lstripSlash (s : String) : String :=
  String.mk (s.data.dropWhile (fun c => c = '/'))

/-- Embedding of `os.path.normpath(os.path.join(local, p))` for the plain
relative paths that occur here: joining with an empty component yields `local`
itself (normpath removes the trailing slash `os.path.join` would add),
otherwise the components are joined with a single slash. -/
def joinPath (localDir p : String) : String :=
  if p = "" then localDir else localDir ++ "/" ++ p

/-! ## Path resolution (`sharepoint_api.py` lines 154-156,
`sharepoint_aoi.py` lines 73-75)

```python
path_parts = item['parentReference']['path'].split('root:')
path = path_parts[1] if len(path_parts) > 1 else ''
full_path = f"{path}/{item['name']}" if path else item['name']
```
-/

/-- The pair `(path, full_path)` computed by both listing functions from the
server-supplied parent path and the item name. -/
def resolve_item_path (parentPath name : String) : String × String :=
  let parts := pySplit "root:" parentPath
  let path := if 1 < parts.length then parts.getD 1 "" else ""
  let full := if path ≠ "" then path ++ "/" ++ name else name
  (path, full)

/-!  ## The remote tree model

A `Forest` is a sibling list in server order; each folder node carries the
children the server would return for its id.  `ItemData` holds the raw JSON
fields the code reads from a Graph item. -/

structure ItemData where
  id : String
  name : String
  mimeType : String
  downloadUrl : String
  parentPath : String
  webUrl : String
  deriving DecidableEq, Repr

inductive Forest where
  | nil : Forest
  | file : ItemData → Forest → Forest
  | folder : ItemData → Forest → Forest → Forest
  deriving DecidableEq, Repr

/-- Number of file leaves in a forest. -/
def countFiles : Forest → Nat
  | .nil => 0
  | .file _ rest => 1 + countFiles rest
  | .folder _ cs rest => countFiles cs + countFiles rest

/-- The ids of all file leaves, in traversal order. -/
def fileIds : Forest → List String
  | .nil => []
  | .file d rest => d.id :: fileIds rest
  | .folder _ cs rest => fileIds cs ++ fileIds rest

/-! ## Recursive enumeration (`sharepoint_aoi.list_folder_contents`,
lines 61-90): for each child of the current folder, a folder record is
appended and then the recursive listing of that folder is appended
(`items_list.extend(...)`); a file record is appended directly. -/

/-- One output record of `sharepoint_aoi.list_folder_contents`. -/
structure AoiItem where
  id : String
  name : String
  type : String
  mimeType : Option String
  uri : Option String
  path : String
  deriving DecidableEq, Repr

/-- The folder record built at `sharepoint_aoi.py` lines 79-81. -/
def mkAoiFolder (d : ItemData) : AoiItem :=
  { id := d.id, name := d.name, type := "Folder", mimeType := none, uri := none,
    path := (resolve_item_path d.parentPath d.name).2 }

/-- The file record built at `sharepoint_aoi.py` lines 86-88. -/
def mkAoiFile (d : ItemData) : AoiItem :=
  { id := d.id, name := d.name, type := "File", mimeType := some d.mimeType,
    uri := some d.downloadUrl, path := (resolve_item_path d.parentPath d.name).2 }

/-- `sharepoint_aoi.list_folder_contents` applied to the children of a folder:
folders are emitted followed by their recursively-listed subtree, files are
emitted directly. -/
def list_folder_contents_rec : Forest → List AoiItem
  | .nil => []
  | .file d rest => mkAoiFile d :: list_folder_contents_rec rest
  | .folder d cs rest =>
      mkAoiFolder d :: (list_folder_contents_rec cs ++ list_folder_contents_rec rest)

/-! ## Paginated flat listing (`sharepoint_api.list_folder_contents`,
lines 148-176): a while-loop fetches pages and follows
`@odata.nextLink` until a page has none. -/

/-- One Graph API response page for a children listing. -/
structure GraphPage where
  value : List ItemData
  odataNextLink : Option String
  deriving DecidableEq, Repr

/-- One output record of `sharepoint_api.list_folder_contents`
(lines 164-174).  `isFolder` tells whether the raw item had a `folder` facet;
file-only fields default to the empty string exactly as in the source
(`item.get('@microsoft.graph.downloadUrl', '')`, `'' if folder`). -/
structure ApiItem where
  id : String
  name : String
  type : String
  mimeType : String
  uri : String
  path : String
  fullpath : String
  filename : String
  url : String
  deriving DecidableEq, Repr

/-- The record built in the loop body of `sharepoint_api.list_folder_contents`
for a raw item; `isFolder` is the `'folder' in item` test. -/
def mk_api_item (isFolder : Bool) (d : ItemData) : ApiItem :=
  let pf := resolve_item_path d.parentPath d.name
  { id := d.id, name := d.name,
    type := if isFolder then "folder" else "file",
    mimeType := if isFolder then "" else d.mimeType,
    uri := d.downloadUrl, path := pf.1, fullpath := pf.2,
    filename := d.name, url := d.webUrl }

/-- A raw page item paired with its folder-facet flag.  For the pagination
claims the flag is irrelevant; pages carry plain `ItemData` and the records
are built with `isFolder := false` (file items), matching a file-only page. -/
def mk_api_file_item (d : ItemData) : ApiItem := mk_api_item false d

/-- The `while folder_contents_url:` loop of
`sharepoint_api.list_folder_contents`.  The argument is the sequence of
successive server responses; each page's items are appended in order and the
loop continues exactly when the page carries an `@odata.nextLink`. -/
def list_folder_contents_paged : List GraphPage → List ApiItem
  | [] => []
  | p :: rest =>
      p.value.map mk_api_file_item ++
        (match p.odataNextLink with
         | some _ => list_folder_contents_paged rest
         | none => [])

/-- The children fetch of `sharepoint_aoi.list_folder_contents`
(lines 63-66): a single `requests.get`, whose response is the first page of
the server's response sequence; `@odata.nextLink` is never read. -/
def aoi_fetch_children (pages : List GraphPage) : List ItemData :=
  match pages with
  | [] => []
  | p :: _ => p.value

/-! ## MIME dispatch (`sharepoint_api.load_sharepoint_document`,
lines 360-383). -/

inductive LoaderKind where
  | pdf | word | ppt | excel | text
  deriving DecidableEq, Repr

/-- The if/elif dispatch of `load_sharepoint_document`: the returned loader
kind (`none` when the final `else` prints `Unsupported file type` and the
function falls through returning `None`), together with what is printed. -/
def load_sharepoint_document_dispatch (file_type : String) :
    Option LoaderKind × List String :=
  if file_type = "application/pdf" then
    (some .pdf, [])
  else if file_type = "application/vnd.openxmlformats-officedocument.wordprocessingml.document" then
    (some .word, [])
  else if file_type = "application/vnd.openxmlformats-officedocument.presentationml.presentation" then
    (some .ppt, [])
  else if file_type = "application/vnd.openxmlformats-officedocument.spreadsheetml.sheet" then
    (some .excel, [])
  else if file_type = "text/csv" ∨ file_type = "text/plain" then
    (some .text, [])
  else
    (none, ["Unsupported file type: " ++ file_type])

/-! ## Chunks and document parsers -/

/-- The metadata dictionary attached to a chunk: `source` is the filename,
`page` is the sheet name for Excel output (absent for Word/Text output). -/
structure ChunkMeta where
  source : String
  page : Option String
  deriving DecidableEq, Repr

/-- One output unit of a `load_and_split` call. -/
structure Chunk where
  text : String
  metadata : ChunkMeta
  deriving DecidableEq, Repr

/-- `CustomWordLoader.load_and_split` (`sharepoint_api.py` lines 431-452) with
no `text_splitter`: all paragraph texts are joined with newlines and returned
as a single record whose metadata carries the filename (the metadata-merge
loop re-inserts the same `source` key, a no-op here). -/
def word_load_and_split (paragraphs : List String) (filename : String) : List Chunk :=
  let text := String.intercalate "\n" paragraphs
  [{ text := text, metadata := { source := filename, page := none } }]

/-- One worksheet: its name and its raw rows of cell texts (already
stringified, as `astype(str)` leaves our string cells unchanged). -/
structure Sheet where
  name : String
  rows : List (List String)
  deriving DecidableEq, Repr

/-- `CustomExcelLoader.load_and_split` (`sharepoint_api.py` lines 469-495)
with no `text_splitter`.  `xls.parse(sheet)` is `pandas.read_excel` with its
default `header=0`: the first row of the sheet becomes the column labels and
`df.values` holds only the remaining rows; `.flatten()` is row-major, and the
flattened cells are joined with newlines.  One record per sheet, in sheet
order, with `page` set to the sheet name. -/
def excel_load_and_split (sheets : List Sheet) (filename : String) : List Chunk :=
  sheets.map (fun sh =>
    { text := String.intercalate "\n" (sh.rows.drop 1).flatten,
      metadata := { source := filename, page := some sh.name } })

/-- UTF-8 decoding of a byte sequence into code points, `none` on any invalid
sequence — the behaviour of Python's `bytes.decode('utf-8')`, which raises
`UnicodeDecodeError` exactly when this returns `none` (continuation-byte
ranges, overlong forms, surrogates and values above U+10FFFF rejected). -/
def utf8Decode : List Nat → Option (List Nat)
  | [] => some []
  | b :: bs =>
    if b < 128 then
      (utf8Decode bs).map (fun r => b :: r)
    else if 194 ≤ b ∧ b ≤ 223 then
      match bs with
      | b2 :: bs2 =>
        if 128 ≤ b2 ∧ b2 ≤ 191 then
          (utf8Decode bs2).map (fun r => ((b - 192) * 64 + (b2 - 128)) :: r)
        else none
      | [] => none
    else if 224 ≤ b ∧ b ≤ 239 then
      match bs with
      | b2 :: b3 :: bs3 =>
        if (128 ≤ b2 ∧ b2 ≤ 191) ∧ (128 ≤ b3 ∧ b3 ≤ 191)
            ∧ (b ≠ 224 ∨ 160 ≤ b2) ∧ (b ≠ 237 ∨ b2 ≤ 159) then
          (utf8Decode bs3).map
            (fun r => ((b - 224) * 4096 + (b2 - 128) * 64 + (b3 - 128)) :: r)
        else none
      | _ => none
    else if 240 ≤ b ∧ b ≤ 244 then
      match bs with
      | b2 :: b3 :: b4 :: bs4 =>
        if (128 ≤ b2 ∧ b2 ≤ 191) ∧ (128 ≤ b3 ∧ b3 ≤ 191) ∧ (128 ≤ b4 ∧ b4 ≤ 191)
            ∧ (b ≠ 240 ∨ 144 ≤ b2) ∧ (b ≠ 244 ∨ b2 ≤ 143) then
          (utf8Decode bs4).map
            (fun r => ((b - 240) * 262144 + (b2 - 128) * 4096
                        + (b3 - 128) * 64 + (b4 - 128)) :: r)
        else none
      | _ => none
    else none

/-- `CustomTextLoader.load_and_split` of `sharepoint_api.py` (lines 558-575)
with no `text_splitter`: the raw bytes are decoded with the encoding chardet
detects.  `detect` and `decodeWith` stand for the external `chardet.detect`
and codec lookup; `decodeWith` returns `none` when decoding raises, which the
loader does not catch (`Except.error`). -/
def text_load_and_split_api (detect : List Nat → String)
    (decodeWith : String → List Nat → Option String)
    (raw : List Nat) (filename : String) : Except Unit (List Chunk) :=
  match decodeWith (detect raw) raw with
  | some text => .ok [{ text := text, metadata := { source := filename, page := none } }]
  | none => .error ()

/-- `CustomTextLoader.load_and_split` of `sharepoint_aoi.py` (lines 296-298)
with no `text_splitter`: `self.stream.read().decode('utf-8')` — a fixed UTF-8
decode, raising (`Except.error`) on any byte sequence that is not valid
UTF-8. -/
def text_load_and_split_aoi (raw : List Nat) (filename : String) :
    Except Unit (List Chunk) :=
  match utf8Decode raw with
  | some cps =>
      .ok [{ text := String.mk (cps.map Char.ofNat),
             metadata := { source := filename, page := none } }]
  | none => .error ()

/-! ## `download_file` (`sharepoint_api.py` lines 179-202) -/

/-- An HTTP response as seen by `download_file`. -/
structure HttpResp where
  status : Nat
  reason : String
  content : List Nat
  deriving DecidableEq, Repr

/-- The observable effect of one `download_file` call: the file written (path
and bytes), if any, and the lines printed. -/
structure DownloadEffect where
  written : Option (String × List Nat)
  logs : List String
  deriving DecidableEq, Repr

/-- The failure line printed by `download_file` on a non-200 status. -/
def downloadFailMsg (fileName : String) (status : Nat) (reason : String) : String :=
  "Failed to download " ++ fileName ++ ": " ++ toString status ++ " - " ++ reason

/-- `SharePointClient.download_file`: only a status of exactly 200 leads to a
write (to `os.path.join(local_path, file_name)`); any other status prints the
failure line and the function returns with no filesystem effect.
`get_long_path` is the identity on non-Windows systems (absolute-path
prefixing aside) and is not modelled. -/
def download_file (resp : HttpResp) (localPath fileName : String) : DownloadEffect :=
  if resp.status = 200 then
    { written := some (localPath ++ "/" ++ fileName, resp.content), logs := [] }
  else
    { written := none, logs := [downloadFailMsg fileName resp.status resp.reason] }

/-! ## `recursive_download` (`sharepoint_api.py` lines 301-328)

```python
try:
    folder_contents = self.list_folder_contents(site_id, drive_id, folder_id)
    for item in folder_contents:
        sharepoint_path = item['path'].lstrip('/')
        new_local_path = os.path.normpath(os.path.join(local_path, sharepoint_path))
        os.makedirs(new_local_path, exist_ok=True)
        if item['type'] == 'folder':
            self.recursive_download(site_id, drive_id, item['id'], local_path)
        elif item['type'] == 'file':
            self.download_file(item['uri'], new_local_path, item['name'])
except Exception as e:
    print(f"An error occurred while recursively downloading files:{new_local_path} {e}")
```

The `try` wraps the listing *and* the whole loop; an exception raised while
processing one item therefore skips the remaining items of that folder.  When
the listing itself raises, the loop never ran, `new_local_path` is unbound,
and the `print` inside `except` raises `UnboundLocalError`, which escapes this
frame and is caught by the caller's `except` (where `new_local_path` is bound
to the failing folder item's path). -/

/-- What the environment does for each node: downloading a file either
succeeds, returns a non-200 status (handled inside `download_file` by
printing), or raises while writing; listing a folder's children either
succeeds or raises. -/
inductive FileOut where
  | ok : FileOut
  | httpErr : Nat → String → FileOut
  | writeErr : String → FileOut
  deriving DecidableEq, Repr

structure DlEnv where
  fileOutcome : String → FileOut
  listOk : String → Bool

/-- Accumulated effects of a `recursive_download` call: ids of files actually
written, and printed lines, in order. -/
structure DlState where
  downloads : List String
  logs : List String
  deriving DecidableEq, Repr

/-- The line printed by the `except` clause of `recursive_download`. -/
def recFailMsg (path emsg : String) : String :=
  "An error occurred while recursively downloading files:" ++ path ++ " " ++ emsg

/-- The text of Python's `UnboundLocalError` raised when the `except` clause
reads `new_local_path` before any loop iteration assigned it. -/
def uleMsg : String :=
  "local variable new_local_path referenced before assignment"

/-- `new_local_path` for an item: `local_path` joined with the item's `path`
field (the parent path stripped of its leading slashes). -/
def itemLocalPath (localDir : String) (d : ItemData) : String :=
  joinPath localDir (lstripSlash (resolve_item_path d.parentPath d.name).1)

/-- Result of running the `for` loop of one `recursive_download` frame:
either it finished, or an exception escaped the loop while `new_local_path`
held the given path. -/
inductive DlLoopRes where
  | done : DlState → DlLoopRes
  | exc : String → String → DlState → DlLoopRes
  deriving DecidableEq, Repr

/-- The `for item in folder_contents:` loop of `recursive_download`.  File
items call `download_file` (non-200 prints and continues; a write error
raises, escaping the loop).  Folder items run a nested frame: its own listing
plus loop plus `except`; a nested exception is caught there and logged, after
which this loop continues — unless the nested listing itself failed, in which
case the nested `except` raises `UnboundLocalError` into this frame, escaping
this loop at the current item. -/
def recursive_download_loop (env : DlEnv) (localDir : String) :
    Forest → DlState → DlLoopRes
  | .nil, st => .done st
  | .file d rest, st =>
      match env.fileOutcome d.id with
      | .ok =>
          recursive_download_loop env localDir rest
            { downloads := st.downloads ++ [d.id], logs := st.logs }
      | .httpErr code reason =>
          recursive_download_loop env localDir rest
            { downloads := st.downloads,
              logs := st.logs ++ [downloadFailMsg d.name code reason] }
      | .writeErr emsg => .exc (itemLocalPath localDir d) emsg st
  | .folder d cs rest, st =>
      if env.listOk d.id then
        match recursive_download_loop env localDir cs st with
        | .done st2 => recursive_download_loop env localDir rest st2
        | .exc p emsg st2 =>
            recursive_download_loop env localDir rest
              { downloads := st2.downloads, logs := st2.logs ++ [recFailMsg p emsg] }
      else
        .exc (itemLocalPath localDir d) uleMsg st

/-- A full `recursive_download` call on a folder whose children are
`children`.  When the root listing succeeds the call always returns normally
(`Except.ok`), logging via its `except` clause if an exception escaped the
loop; when the root listing raises, the `except` clause itself raises
`UnboundLocalError`, which escapes to the caller (`Except.error`). -/
def recursive_download (env : DlEnv) (localDir rootId : String)
    (children : Forest) : Except DlState DlState :=
  if env.listOk rootId then
    match recursive_download_loop env localDir children { downloads := [], logs := [] } with
    | .done st => .ok st
    | .exc p emsg st =>
        .ok { downloads := st.downloads, logs := st.logs ++ [recFailMsg p emsg] }
  else
    .error { downloads := [], logs := [] }

/-! ## `process_element` (`download_all_files_to_local_folder.py`
lines 56-87)

`processed_files = set()` is a module-level global, created once per process
and never reset between invocations.  It is threaded here explicitly as the
`processed` field of the state; `downloads` logs each id actually passed to
`download_file_contents`, in order.  Folder listings and downloads are
modelled as succeeding (their failure handling is `recursive_download`'s
concern, not the de-duplication logic's). -/

structure ProcState where
  processed : List String
  downloads : List String
  deriving DecidableEq, Repr

/-- `process_element` folded over a sibling list: a file id already in
`processed_files` is skipped; otherwise it is downloaded and added; a folder
recurses into its children. -/
def process_element : Forest → ProcState → ProcState
  | .nil, st => st
  | .file d rest, st =>
      if d.id ∈ st.processed then
        process_element rest st
      else
        process_element rest
          { processed := d.id :: st.processed, downloads := st.downloads ++ [d.id] }
  | .folder _ cs rest, st => process_element rest (process_element cs st)

/-! ## Verification-side definitions -/

/-- Invariant of the de-duplication state: no id was downloaded twice, and
every downloaded id is recorded in the processed set. -/
def DedupInv (st : ProcState) : Prop :=
  st.downloads.Nodup ∧ ∀ x ∈ st.downloads, x ∈ st.processed

/-- Modelled from the spec's words, for comparison with
`excel_load_and_split`: the text the claim predicts for a sheet — every cell
value of the sheet, row-major, newline-joined (header row included). -/
def excel_all_cells_text (sh : Sheet) : String :=
  String.intercalate "\n" sh.rows.flatten

/-! Concrete fixtures for counterexamples and witnesses. -/

/-- A single file directly under the drive root. -/
def c4Item : ItemData :=
  { id := "f1", name := "a.txt", mimeType := "text/plain", downloadUrl := "u",
    parentPath := "/drives/d/root:", webUrl := "" }

/-- A forest holding exactly that one file. -/
def c4Forest : Forest := .file c4Item .nil

/-- Two sibling files under the drive root; the first one's write fails. -/
def cex5Item1 : ItemData :=
  { id := "f1", name := "a.pdf", mimeType := "application/pdf", downloadUrl := "u1",
    parentPath := "/drives/d/root:", webUrl := "" }

def cex5Item2 : ItemData :=
  { id := "f2", name := "b.pdf", mimeType := "application/pdf", downloadUrl := "u2",
    parentPath := "/drives/d/root:", webUrl := "" }

/-- Environment where writing file `f1` raises `PermissionError` and every
other operation succeeds. -/
def cex5Env : DlEnv :=
  { fileOutcome := fun i => if i = "f1" then .writeErr "Errno 13" else .ok,
    listOk := fun _ => true }

def cex5Forest : Forest := .file cex5Item1 (.file cex5Item2 .nil)

/-- Environment where fetching file `f404` returns HTTP 404, writing file
`fEPERM` raises, and everything else succeeds. -/
def w5Env : DlEnv :=
  { fileOutcome := fun i =>
      if i = "f404" then .httpErr 404 "Not Found"
      else if i = "fEPERM" then .writeErr "Errno 13"
      else .ok,
    listOk := fun _ => true }

def w5Item404 : ItemData :=
  { id := "f404", name := "b.pdf", mimeType := "application/pdf", downloadUrl := "u",
    parentPath := "/drives/d/root:", webUrl := "" }

def w5ItemW : ItemData :=
  { id := "fEPERM", name := "c.pdf", mimeType := "application/pdf", downloadUrl := "u",
    parentPath := "/drives/d/root:", webUrl := "" }

def w6Item1 : ItemData :=
  { id := "i1", name := "a.txt", mimeType := "text/plain", downloadUrl := "u1",
    parentPath := "/drives/d/root:", webUrl := "w1" }

def w6Item2 : ItemData :=
  { id := "i2", name := "b.txt", mimeType := "text/plain", downloadUrl := "u2",
    parentPath := "/drives/d/root:", webUrl := "w2" }

/-- A children listing split by the server into two pages: the first carries
a continuation token, the second does not. -/
def w6Pages : List GraphPage :=
  [{ value := [w6Item1], odataNextLink := some "nextToken" },
   { value := [w6Item2], odataNextLink := none }]

/-! # Theorems -/

/-- C1: `sharepoint_aoi.list_folder_contents` returns nodes in depth-first
pre-order — a folder record is emitted immediately before the full listing of
its subtree, a file child is emitted directly with no recursion — and the
number of records typed `File` equals the number of file leaves of the
subtree. -/
theorem list_folder_contents_rec_preorder :
    (∀ d cs rest, list_folder_contents_rec (.folder d cs rest) =
        mkAoiFolder d :: (list_folder_contents_rec cs ++ list_folder_contents_rec rest))
    ∧ (∀ d rest, list_folder_contents_rec (.file d rest) =
        mkAoiFile d :: list_folder_contents_rec rest)
    ∧ ∀ f, (list_folder_contents_rec f).countP (fun r => r.type == "File")
        = countFiles f := by
  refine ⟨fun _ _ _ => rfl, fun _ _ => rfl, ?_⟩
  intro f
  induction f with
  | nil => rfl
  | file d rest ih =>
      simp [list_folder_contents_rec, List.countP_cons, mkAoiFile, ih, countFiles]
      omega
  | folder d cs rest ihcs ihrest =>
      simp [list_folder_contents_rec, List.countP_cons, List.countP_append,
        mkAoiFolder, ihcs, ihrest, countFiles]

/-- C2 counterexample: for a parent path lacking the `root:` sentinel, the
code sets `path = ''` and `full_path = name`, discarding the parent path
entirely — it does not treat the whole string as already-relative and join it
with the name, which would give `("Documents/sub", "Documents/sub/a.txt")`. -/
theorem resolve_item_path_no_sentinel_counterexample :
    resolve_item_path "Documents/sub" "a.txt" = ("", "a.txt")
    ∧ ("", "a.txt") ≠ ("Documents/sub", "Documents/sub/a.txt") := by
  decide

/-- C2 amended: when the parent path contains the sentinel (split on `root:`
yields two parts), the relative path is the part after the sentinel, joined
with the name by `/` unless it is empty, in which case the name alone is
used; when the sentinel is absent (split yields one part), the parent path is
discarded: the relative path is empty and the full path is just the name —
and in neither case does the resolver crash. -/
theorem resolve_item_path_amended :
    (∀ pp nm a b, pySplit "root:" pp = [a, b] →
        resolve_item_path pp nm = (b, if b ≠ "" then b ++ "/" ++ nm else nm))
    ∧ (∀ pp nm a, pySplit "root:" pp = [a] →
        resolve_item_path pp nm = ("", nm)) := by
  constructor
  · intro pp nm a b h
    simp [resolve_item_path, h]
  · intro pp nm a h
    simp [resolve_item_path, h]

/-- C2 witness: the amended path resolution evaluated on a sentinel-bearing
parent path and on a sentinel-free one. -/
theorem resolve_item_path_amended_witness :
    resolve_item_path "/drives/d1/root:/sub" "a.txt" = ("/sub", "/sub/a.txt")
    ∧ resolve_item_path "plain" "a.txt" = ("", "a.txt") := by
  constructor
  · have h := resolve_item_path_amended.1 "/drives/d1/root:/sub" "a.txt"
      "/drives/d1/" "/sub" (by decide)
    exact h.trans (by decide)
  · exact resolve_item_path_amended.2 "plain" "a.txt" "plain" (by decide)

/-- C3: the MIME dispatch of `load_sharepoint_document` maps each of the five
known MIME types (six strings) to the correspondingly-typed loader, and maps
every other MIME type to `None` after printing the unsupported-type line,
without raising. -/
theorem load_sharepoint_document_dispatch_table :
    load_sharepoint_document_dispatch "application/pdf" = (some .pdf, [])
    ∧ load_sharepoint_document_dispatch
        "application/vnd.openxmlformats-officedocument.wordprocessingml.document"
        = (some .word, [])
    ∧ load_sharepoint_document_dispatch
        "application/vnd.openxmlformats-officedocument.presentationml.presentation"
        = (some .ppt, [])
    ∧ load_sharepoint_document_dispatch
        "application/vnd.openxmlformats-officedocument.spreadsheetml.sheet"
        = (some .excel, [])
    ∧ load_sharepoint_document_dispatch "text/csv" = (some .text, [])
    ∧ load_sharepoint_document_dispatch "text/plain" = (some .text, [])
    ∧ ∀ t, t ≠ "application/pdf" →
        t ≠ "application/vnd.openxmlformats-officedocument.wordprocessingml.document" →
        t ≠ "application/vnd.openxmlformats-officedocument.presentationml.presentation" →
        t ≠ "application/vnd.openxmlformats-officedocument.spreadsheetml.sheet" →
        t ≠ "text/csv" → t ≠ "text/plain" →
        load_sharepoint_document_dispatch t =
          (none, ["Unsupported file type: " ++ t]) := by
  refine ⟨by decide, by decide, by decide, by decide, by decide, by decide, ?_⟩
  intro t h1 h2 h3 h4 h5 h6
  simp [load_sharepoint_document_dispatch, h1, h2, h3, h4, h5, h6]

/-- C3 witness: the dispatch at an unknown MIME type returns the unsupported
sentinel with the logged line. -/
theorem load_sharepoint_document_dispatch_table_witness :
    load_sharepoint_document_dispatch "image/png" =
      (none, ["Unsupported file type: image/png"]) := by
  have h := load_sharepoint_document_dispatch_table.2.2.2.2.2.2 "image/png"
    (by decide) (by decide) (by decide) (by decide) (by decide) (by decide)
  exact h.trans (by decide)

/-- C7: the Word parser with no chunker returns exactly one chunk whose text
is the newline-separated concatenation of the paragraph texts in order, with
`source` metadata equal to the filename; in particular on paragraphs
`["Hello", "", "World"]` the single chunk's text is `"Hello\n\nWorld"`. -/
theorem word_load_and_split_single_chunk :
    (∀ ps fn, word_load_and_split ps fn =
        [{ text := String.intercalate "\n" ps,
           metadata := { source := fn, page := none } }])
    ∧ word_load_and_split ["Hello", "", "World"] "report.docx" =
        [{ text := "Hello\n\nWorld",
           metadata := { source := "report.docx", page := none } }] :=
  ⟨fun _ _ => rfl, by decide⟩

/-- C10: `download_file` writes the joined local path with the response body
exactly when the status is 200 (printing nothing), and on any other status
writes nothing, prints the failure line, and returns normally. -/
theorem download_file_status_policy :
    ∀ resp localPath fileName,
      (resp.status = 200 →
        download_file resp localPath fileName =
          { written := some (localPath ++ "/" ++ fileName, resp.content),
            logs := [] })
      ∧ (resp.status ≠ 200 →
        download_file resp localPath fileName =
          { written := none,
            logs := [downloadFailMsg fileName resp.status resp.reason] }) := by
  intro resp localPath fileName
  constructor <;> intro h <;> simp [download_file, h]

/-- C10 witness: a 200 response is written to `data/a.txt`, a 404 response
writes nothing and prints the failure line. -/
theorem download_file_status_policy_witness :
    download_file { status := 200, reason := "OK", content := [1, 2] } "data" "a.txt"
      = { written := some ("data/a.txt", [1, 2]), logs := [] }
    ∧ download_file { status := 404, reason := "Not Found", content := [] } "data" "a.txt"
      = { written := none, logs := [downloadFailMsg "a.txt" 404 "Not Found"] } := by
  constructor
  · have h := (download_file_status_policy
      { status := 200, reason := "OK", content := [1, 2] } "data" "a.txt").1 rfl
    exact h.trans (by decide)
  · exact (download_file_status_policy
      { status := 404, reason := "Not Found", content := [] } "data" "a.txt").2 (by decide)

/-- The processed set only grows along a traversal. -/
theorem process_element_processed_mono (f : Forest) :
    ∀ st x, x ∈ st.processed → x ∈ (process_element f st).processed := by
  induction f with
  | nil => intro st x h; exact h
  | file d rest ih =>
      intro st x h
      by_cases hd : d.id ∈ st.processed
      · simpa [process_element, hd] using ih st x h
      · simp only [process_element, if_neg hd]
        exact ih _ x (List.mem_cons_of_mem _ h)
  | folder d cs rest ihcs ihrest =>
      intro st x h
      exact ihrest _ x (ihcs st x h)

/-- After a traversal, every file id of the forest is in the processed set. -/
theorem process_element_covers (f : Forest) :
    ∀ st x, x ∈ fileIds f → x ∈ (process_element f st).processed := by
  induction f with
  | nil => intro st x h; simp [fileIds] at h
  | file d rest ih =>
      intro st x h
      rcases List.mem_cons.mp (by simpa [fileIds] using h) with h1 | h2
      · subst h1
        by_cases hd : d.id ∈ st.processed
        · simp only [process_element, if_pos hd]
          exact process_element_processed_mono rest st _ hd
        · simp only [process_element, if_neg hd]
          exact process_element_processed_mono rest _ _ (List.mem_cons_self _ _)
      · by_cases hd : d.id ∈ st.processed
        · simp only [process_element, if_pos hd]
          exact ih st x h2
        · simp only [process_element, if_neg hd]
          exact ih _ x h2
  | folder d cs rest ihcs ihrest =>
      intro st x h
      rcases List.mem_append.mp (by simpa [fileIds] using h) with h1 | h2
      · exact process_element_processed_mono rest _ x (ihcs st x h1)
      · exact ihrest _ x h2

/-- A traversal whose file ids are all already processed changes nothing. -/
theorem process_element_stable (f : Forest) :
    ∀ st, (∀ x ∈ fileIds f, x ∈ st.processed) → process_element f st = st := by
  induction f with
  | nil => intro st _; rfl
  | file d rest ih =>
      intro st h
      have hd : d.id ∈ st.processed := h d.id (by simp [fileIds])
      simp only [process_element, if_pos hd]
      exact ih st (fun x hx => h x (by simp [fileIds, hx]))
  | folder d cs rest ihcs ihrest =>
      intro st h
      have h1 : process_element cs st = st :=
        ihcs st (fun x hx => h x (by simp [fileIds]; exact Or.inl hx))
      simp only [process_element, h1]
      exact ihrest st (fun x hx => h x (by simp [fileIds]; exact Or.inr hx))

/-- The de-duplication invariant is preserved by a traversal. -/
theorem process_element_inv (f : Forest) :
    ∀ st, DedupInv st → DedupInv (process_element f st) := by
  induction f with
  | nil => intro st h; exact h
  | file d rest ih =>
      intro st h
      by_cases hd : d.id ∈ st.processed
      · simpa [process_element, hd] using ih st h
      · simp only [process_element, if_neg hd]
        refine ih _ ⟨?_, ?_⟩
        · have hnd : d.id ∉ st.downloads := fun hx => hd (h.2 d.id hx)
          simp [List.nodup_append, h.1, hnd]
        · intro x hx
          rcases List.mem_append.mp hx with h1 | h2
          · exact List.mem_cons_of_mem _ (h.2 x h1)
          · simp only [List.mem_singleton] at h2
            subst h2
            exact List.mem_cons_self _ _
  | folder d cs rest ihcs ihrest =>
      intro st h
      exact ihrest _ (ihcs st h)

/-- C4 amended: within one traversal started from the empty state no file id
is ever downloaded twice (the downloads log has no duplicates); but the
de-duplication set is module-level global state threaded across calls, so a
second traversal of the same forest, carrying the state the first one left,
is a no-op — it downloads nothing, instead of downloading every file again. -/
theorem process_element_dedup_global :
    (∀ f, (process_element f { processed := [], downloads := [] }).downloads.Nodup)
    ∧ ∀ f st, process_element f (process_element f st) = process_element f st := by
  constructor
  · intro f
    exact (process_element_inv f { processed := [], downloads := [] }
      ⟨List.nodup_nil, by intro x hx; simp at hx⟩).1
  · intro f st
    exact process_element_stable f _ (fun x hx => process_element_covers f st x hx)

/-- C4 counterexample: `processed_files` persists across invocations.  The
first `process_element` traversal of the one-file forest downloads `f1`; a
second traversal in the same process downloads nothing (the downloads log is
still `["f1"]`, not `["f1", "f1"]`), refuting the claim that two separate
invocations download every file both times. -/
theorem process_element_cross_call_counterexample :
    (process_element c4Forest { processed := [], downloads := [] }).downloads = ["f1"]
    ∧ (process_element c4Forest
        (process_element c4Forest { processed := [], downloads := [] })).downloads
      = ["f1"] := by
  decide

/-- C5 counterexample: in `recursive_download` the `try` wraps the whole
`for` loop, so a write error on one file aborts the remaining siblings of
that folder.  With file `f1` raising on write and its sibling `f2` perfectly
downloadable, the call returns normally having downloaded nothing — `f2` was
never reached — and logs the exception with the folder's local path at its
own level, refuting the claim that traversal continues to the remaining
sibling files. -/
theorem recursive_download_write_error_counterexample :
    recursive_download cex5Env "data" "root" cex5Forest =
      .ok { downloads := [], logs := [recFailMsg "data" "Errno 13"] }
    ∧ cex5Env.fileOutcome "f2" = .ok := by
  exact ⟨rfl, rfl⟩

/-- C5 amended: an HTTP non-200 status on a single file is handled inside
`download_file` — the failure line (naming the file, not its resolved path)
is printed and the loop continues with the remaining siblings unchanged; a
write error raises, escaping the loop at the current item and dropping that
folder's remaining items (it is then caught and logged by the enclosing
`except`); and whenever the root listing succeeds the whole call returns
normally, never aborting the caller. -/
theorem recursive_download_failure_policy :
    (∀ env localDir d rest st code reason,
        env.fileOutcome d.id = .httpErr code reason →
        recursive_download_loop env localDir (.file d rest) st =
          recursive_download_loop env localDir rest
            { downloads := st.downloads,
              logs := st.logs ++ [downloadFailMsg d.name code reason] })
    ∧ (∀ env localDir d rest st emsg,
        env.fileOutcome d.id = .writeErr emsg →
        recursive_download_loop env localDir (.file d rest) st =
          .exc (itemLocalPath localDir d) emsg st)
    ∧ (∀ env localDir rootId children,
        env.listOk rootId = true →
        ∃ st, recursive_download env localDir rootId children = .ok st) := by
  refine ⟨?_, ?_, ?_⟩
  · intro env localDir d rest st code reason h
    simp [recursive_download_loop, h]
  · intro env localDir d rest st emsg h
    simp [recursive_download_loop, h]
  · intro env localDir rootId children h
    unfold recursive_download
    rw [h]
    cases hl : recursive_download_loop env localDir children
        { downloads := [], logs := [] } with
    | done st => exact ⟨st, by simp [hl]⟩
    | exc p emsg st =>
        exact ⟨{ downloads := st.downloads, logs := st.logs ++ [recFailMsg p emsg] },
          by simp [hl]⟩

/-- C5 witness: in the environment `w5Env`, a 404 file logs and the loop
continues; a write-error file escapes the loop with its local path; a call
whose root listing succeeds returns normally. -/
theorem recursive_download_failure_policy_witness :
    recursive_download_loop w5Env "data" (.file w5Item404 .nil)
        { downloads := [], logs := [] } =
      recursive_download_loop w5Env "data" .nil
        { downloads := [], logs := [downloadFailMsg "b.pdf" 404 "Not Found"] }
    ∧ recursive_download_loop w5Env "data" (.file w5ItemW .nil)
        { downloads := [], logs := [] } =
      .exc (itemLocalPath "data" w5ItemW) "Errno 13" { downloads := [], logs := [] }
    ∧ ∃ st, recursive_download w5Env "data" "root" (.file w5Item404 .nil) = .ok st := by
  refine ⟨?_, ?_, ?_⟩
  · exact recursive_download_failure_policy.1 w5Env "data" w5Item404 .nil
      { downloads := [], logs := [] } 404 "Not Found" rfl
  · exact recursive_download_failure_policy.2.1 w5Env "data" w5ItemW .nil
      { downloads := [], logs := [] } "Errno 13" rfl
  · exact recursive_download_failure_policy.2.2 w5Env "data" "root"
      (.file w5Item404 .nil) rfl

/-- C6 counterexample: the recursive enumeration of
`sharepoint_aoi.list_folder_contents` issues a single request per folder and
never reads `@odata.nextLink`.  On a children listing the server splits into
two pages it returns only the first page's item, while the full listing holds
both — the second page is dropped, refuting the claim for this
enumeration. -/
theorem pagination_aoi_counterexample :
    aoi_fetch_children w6Pages = [w6Item1]
    ∧ (w6Pages.map GraphPage.value).flatten = [w6Item1, w6Item2]
    ∧ ([w6Item1] : List ItemData) ≠ [w6Item1, w6Item2] := by
  decide

/-- C6 amended: the paginated listing of `sharepoint_api.list_folder_contents`
follows the continuation token of each page until none remains and returns
the concatenation of all pages' records in page order (no page dropped or
reordered); the enumeration of `sharepoint_aoi.list_folder_contents`, by
contrast, issues one request per folder and uses only the first page of the
server's response sequence. -/
theorem list_folder_contents_pagination :
    (∀ pages : List GraphPage,
        (∀ p ∈ pages.dropLast, p.odataNextLink.isSome) →
        list_folder_contents_paged pages =
          (pages.map (fun p => p.value.map mk_api_file_item)).flatten)
    ∧ ∀ (p : GraphPage) (rest : List GraphPage),
        aoi_fetch_children (p :: rest) = p.value := by
  constructor
  · intro pages
    induction pages with
    | nil => intro _; rfl
    | cons p rest ih =>
        intro h
        cases rest with
        | nil =>
            cases hnl : p.odataNextLink <;>
              simp [list_folder_contents_paged, hnl]
        | cons q rest2 =>
            have hp : p.odataNextLink.isSome := h p (by simp [List.dropLast])
            rcases Option.isSome_iff_exists.mp hp with ⟨tok, htok⟩
            have ih2 := ih (fun x hx => h x (by
              simp only [List.dropLast_cons_of_ne_nil (List.cons_ne_nil q rest2)]
              exact List.mem_cons_of_mem _ hx))
            show p.value.map mk_api_file_item ++
                (match p.odataNextLink with
                 | some _ => list_folder_contents_paged (q :: rest2)
                 | none => []) = _
            rw [htok, ih2]
            simp
  · intro p rest
    rfl

/-- C6 witness: on the concrete two-page chain `w6Pages` the paginated
listing returns both pages' records in page order. -/
theorem list_folder_contents_pagination_witness :
    list_folder_contents_paged w6Pages =
      [mk_api_file_item w6Item1, mk_api_file_item w6Item2] := by
  have h := list_folder_contents_pagination.1 w6Pages (by decide)
  exact h.trans (by decide)

/-- C8 counterexample: `xls.parse(sheet)` is `pandas.read_excel` with default
`header=0`, so the first row of each sheet is consumed as column labels and
is absent from `df.values`.  On a sheet whose rows are
`[["h1", "h2"], ["a", "b"]]` the produced text is `"a\nb"`, not the
newline-join of every cell value `"h1\nh2\na\nb"` the claim predicts. -/
theorem excel_header_row_counterexample :
    (excel_load_and_split [{ name := "S1", rows := [["h1", "h2"], ["a", "b"]] }]
        "wb.xlsx").map Chunk.text = ["a\nb"]
    ∧ excel_all_cells_text { name := "S1", rows := [["h1", "h2"], ["a", "b"]] }
        = "h1\nh2\na\nb"
    ∧ ("a\nb" : String) ≠ "h1\nh2\na\nb" := by
  decide

/-- C8 amended: with no chunker the Excel parser returns exactly one chunk
per sheet, in sheet order, each with `page` metadata equal to its sheet name
and `source` equal to the filename, and each chunk's text is the newline-join
of the sheet's cell values in row-major order excluding the first row, which
the reading library consumes as the column header; on a two-sheet workbook it
returns two chunks with the respective sheet names. -/
theorem excel_load_and_split_per_sheet :
    (∀ sheets fn, List.Forall₂
        (fun (sh : Sheet) (c : Chunk) =>
          c.text = String.intercalate "\n" (sh.rows.drop 1).flatten
          ∧ c.metadata.source = fn ∧ c.metadata.page = some sh.name)
        sheets (excel_load_and_split sheets fn))
    ∧ (∀ sheets fn, (excel_load_and_split sheets fn).length = sheets.length)
    ∧ excel_load_and_split
        [{ name := "S1", rows := [["h"], ["a"]] },
         { name := "S2", rows := [["k"], ["b"], ["c"]] }] "wb.xlsx" =
      [{ text := "a", metadata := { source := "wb.xlsx", page := some "S1" } },
       { text := "b\nc", metadata := { source := "wb.xlsx", page := some "S2" } }] := by
  refine ⟨?_, ?_, by decide⟩
  · intro sheets fn
    induction sheets with
    | nil => exact List.Forall₂.nil
    | cons sh rest ih => exact List.Forall₂.cons ⟨rfl, rfl, rfl⟩ ih
  · intro sheets fn
    simp [excel_load_and_split]

/-- C9 counterexample: `sharepoint_aoi.CustomTextLoader` decodes with a fixed
`utf-8`.  On the single byte `0xE9` (a Latin-1 `é`, not valid UTF-8) it
raises `UnicodeDecodeError` instead of returning the decoded content, while a
loader using a detected single-byte encoding succeeds, refuting the claim
that every text parser auto-detects the encoding. -/
theorem text_loader_fixed_utf8_counterexample :
    text_load_and_split_aoi [233] "latin1.txt" = .error ()
    ∧ text_load_and_split_api (fun _ => "windows-1252")
        (fun _ raw => some (String.mk (raw.map Char.ofNat))) [233] "latin1.txt"
      = .ok [{ text := "é", metadata := { source := "latin1.txt", page := none } }] := by
  exact ⟨rfl, rfl⟩

/-- C9 amended: the `sharepoint_api` text loader decodes the full byte
content with the encoding chardet detects, returning one chunk whose text is
that decoded content; the `sharepoint_aoi` text loader instead assumes fixed
UTF-8, raising on any bytes that are not valid UTF-8. -/
theorem text_load_and_split_encoding :
    (∀ detect decodeWith raw fn t, decodeWith (detect raw) raw = some t →
        text_load_and_split_api detect decodeWith raw fn =
          .ok [{ text := t, metadata := { source := fn, page := none } }])
    ∧ ∀ raw fn, utf8Decode raw = none →
        text_load_and_split_aoi raw fn = .error () := by
  constructor
  · intro detect decodeWith raw fn t h
    simp [text_load_and_split_api, h]
  · intro raw fn h
    simp [text_load_and_split_aoi, h]

/-- C9 witness: a detector-decoder pair that decodes `[104, 105]` as `"hi"`
makes the api loader return that chunk, and the aoi loader errors on the
invalid-UTF-8 byte `0xE9`. -/
theorem text_load_and_split_encoding_witness :
    text_load_and_split_api (fun _ => "ascii") (fun _ _ => some "hi")
        [104, 105] "notes.txt"
      = .ok [{ text := "hi", metadata := { source := "notes.txt", page := none } }]
    ∧ text_load_and_split_aoi [233] "notes.txt" = .error () := by
  constructor
  · exact text_load_and_split_encoding.1 (fun _ => "ascii") (fun _ _ => some "hi")
      [104, 105] "notes.txt" "hi" rfl
  · exact text_load_and_split_encoding.2 [233] "notes.txt" rfl

end SPVerify
